import Mathlib

/-!
Verification of the execution-trace decoder of the Miden ZK-VM against its
natural-language specification.

The development shallowly embeds two source files:

* `processor/src/decoder/mod.rs` — the decoder state machine, block stack,
  span context and the `Process`-level block-start handlers;
* `src/air/trace_state.rs` — the `TraceState` row view.

Field elements are modelled as natural numbers carrying the canonical integer
representation; field operations reduce modulo the prime explicitly.  Fallible
operations (Rust `expect`, `debug_assert`, slice indexing that can panic)
return `Option`.
-/

-- ============================================================================
-- Field arithmetic
-- ============================================================================

/-- Modulus of the 64-bit field used by `vm_core::Felt`
(winterfell `f64`): 2^64 - 2^32 + 1. -/
def PFelt : Nat := 2 ^ 64 - 2 ^ 32 + 1

/-- `Felt::new` on a `u64` value: reduction to the canonical representative. -/
def feltNew (x : Nat) : Nat := x % PFelt

/-- Field addition on canonical representatives. -/
def feltAdd (a b : Nat) : Nat := (a + b) % PFelt

/-- Field subtraction on canonical representatives. -/
def feltSub (a b : Nat) : Nat := (a + (PFelt - b % PFelt)) % PFelt

/-- Wrapping subtraction on `u64` values (release-mode Rust semantics; the
theorems only use it where no underflow occurs). -/
def u64Sub (a b : Nat) : Nat := (a + (2 ^ 64 - b % 2 ^ 64)) % 2 ^ 64

/-- Modulus of the 128-bit field used by `TraceState`
(winterfell `f128::BaseElement`): 2^128 - 45 * 2^40 + 1. -/
def P128 : Nat := 2 ^ 128 - 45 * 2 ^ 40 + 1

/-- Field multiplication in the 128-bit field. -/
def feltMul128 (a b : Nat) : Nat := a * b % P128

/-- Fuel-driven helper for `nextPow2`; doubles `p` until it reaches `n`. -/
def nextPow2Go (n : Nat) : Nat → Nat → Nat
  | 0, p => p
  | fuel + 1, p => if n ≤ p then p else nextPow2Go n fuel (2 * p)

/-- Rust `usize::next_power_of_two`: the least power of two that is ≥ `n`
(1 for `n = 0`).  Fuel `n` suffices since the candidate doubles each step. -/
def nextPow2 (n : Nat) : Nat := nextPow2Go n n 1

-- ============================================================================
-- External data consumed by the decoder (vm_core types, modelled by their
-- observable accessors: hashes are 4-element words, i.e. lists of felts)
-- ============================================================================

/-- `vm_core::Operation`, reduced to the two accessors the decoder uses:
`op_code() -> Option<u8>` and `is_decorator() -> bool`.  The concrete opcode
encodings live in the external `vm_core` crate. -/
structure Operation where
  op_code : Option Nat
  is_decorator : Bool
deriving DecidableEq, Repr

/-- `Operation::Join` (its opcode is never inspected by the decoder). -/
def Operation.Join : Operation := ⟨none, false⟩

/-- `Operation::Split` (its opcode is never inspected by the decoder). -/
def Operation.Split : Operation := ⟨none, false⟩

/-- `Operation::End` (its opcode is never inspected by the decoder). -/
def Operation.End : Operation := ⟨none, false⟩

/-- A user operation carrying a concrete 7-bit opcode. -/
def mkUserOp (oc : Nat) : Operation := ⟨some oc, false⟩

/-- A `Join` block, modelled by the hashes the decoder reads from it:
`first().hash()`, `second().hash()` and `hash()`. -/
structure Join where
  first_hash : List Nat
  second_hash : List Nat
  hash : List Nat
deriving DecidableEq, Repr

/-- A `Split` block, modelled by `on_true().hash()`, `on_false().hash()`
and `hash()`. -/
structure Split where
  on_true_hash : List Nat
  on_false_hash : List Nat
  hash : List Nat
deriving DecidableEq, Repr

/-- `vm_core::OpBatch`: `groups() -> [Felt; 8]` and `num_groups() -> usize`. -/
structure OpBatch where
  groups : List Nat
  num_groups : Nat
deriving DecidableEq, Repr, Inhabited

/-- A `Span` block: its op-batches and its `hash()`. -/
structure Span where
  op_batches : List OpBatch
  hash : List Nat
deriving DecidableEq, Repr

-- ============================================================================
-- Decoder state (processor/src/decoder/mod.rs)
-- ============================================================================

/-- `BlockInfo { addr, parent_addr }`. -/
structure BlockInfo where
  addr : Nat
  parent_addr : Nat
deriving DecidableEq, Repr

/-- `SpanContext { group_ops_left, num_groups_left }`. -/
structure SpanContext where
  group_ops_left : Nat
  num_groups_left : Nat
deriving DecidableEq, Repr

/-- One row appended to the `DecoderTrace` buffer.  Modelled from the spec:
`decoder/trace.rs` is not part of the sources, and §4.C specifies that each
exposed `append_*` operation appends exactly one row recording its arguments.
Each constructor mirrors one append operation. -/
inductive TraceRow where
  | row (addr : Nat) (op : Operation) (child1 child2 : List Nat)
  | spanStart (parent_addr : Nat) (first_op_batch : List Nat) (num_op_groups : Nat)
  | respanRow (op_groups : List Nat)
  | userOp (op : Operation) (addr parent_addr num_groups_left group_ops_left : Nat)
  | spanEnd (block_hash : List Nat) (extra : Nat)
deriving DecidableEq, Repr

/-- The decoder: block stack (head of the list is the top of the `Vec`),
optional span context, and the trace buffer (rows in append order). -/
structure Decoder where
  block_stack : List BlockInfo
  span_context : Option SpanContext
  trace : List TraceRow
deriving DecidableEq, Repr

/-- `BlockStack::push`: returns the `addr` of the previous top (zero when the
stack is empty) and the stack with `(addr, parent_addr)` appended. -/
def BlockStack.push (s : List BlockInfo) (addr : Nat) : Nat × List BlockInfo :=
  let parent_addr :=
    match s with
    | [] => 0
    | top :: _ => top.addr
  (parent_addr, ⟨addr, parent_addr⟩ :: s)

/-- The `addr` of the top entry, zero for an empty stack (the value
`BlockStack::push` reads before appending). -/
def headAddr : List BlockInfo → Nat
  | [] => 0
  | top :: _ => top.addr

-- ============================================================================
-- Helper functions (bottom of decoder/mod.rs)
-- ============================================================================

/-- `get_num_op_groups_in_span`: fold over the op-batches, adding
`num_groups().next_power_of_two()` for each, then `Felt::new`. -/
def get_num_op_groups_in_span (block : Span) : Nat :=
  feltNew (block.op_batches.foldl (fun acc batch => acc + nextPow2 batch.num_groups) 0)

/-- `remove_opcode_from_group`: `Felt::new((op_group.as_int() - opcode) >> NUM_OP_BITS)`
with `NUM_OP_BITS = 7`; `None` when the operation has no opcode
(the Rust `expect`). -/
def remove_opcode_from_group (op_group : Nat) (op : Operation) : Option Nat :=
  match op.op_code with
  | none => none
  | some opcode => some (feltNew (u64Sub op_group opcode >>> 7))

-- ============================================================================
-- Decoder operations
-- ============================================================================

/-- `Decoder::start_join`: push the block, append a JOIN row carrying the
children's hashes. -/
def Decoder.start_join (d : Decoder) (block : Join) (addr : Nat) : Decoder :=
  let p := BlockStack.push d.block_stack addr
  { d with
    block_stack := p.2
    trace := d.trace ++ [.row p.1 Operation.Join block.first_hash block.second_hash] }

/-- `Decoder::end_join`: pop the block (fatal on an empty stack), append an
END row with the block's hash. -/
def Decoder.end_join (d : Decoder) (block : Join) : Option Decoder :=
  match d.block_stack with
  | [] => none
  | block_info :: rest =>
    some { d with
           block_stack := rest
           trace := d.trace ++
             [.row block_info.addr Operation.End block.hash (List.replicate 4 0)] }

/-- `Decoder::start_split`: identical to `start_join` except for the opcode;
the popped condition is received but ignored (`_condition`). -/
def Decoder.start_split (d : Decoder) (block : Split) (addr _condition : Nat) : Decoder :=
  let p := BlockStack.push d.block_stack addr
  { d with
    block_stack := p.2
    trace := d.trace ++ [.row p.1 Operation.Split block.on_true_hash block.on_false_hash] }

/-- `Decoder::end_split`: pop the block, append an END row. -/
def Decoder.end_split (d : Decoder) (block : Split) : Option Decoder :=
  match d.block_stack with
  | [] => none
  | block_info :: rest =>
    some { d with
           block_stack := rest
           trace := d.trace ++
             [.row block_info.addr Operation.End block.hash (List.replicate 4 0)] }

/-- `Decoder::start_span`: fatal when already in a span (`debug_assert`) or the
span has no batches (`op_batches()[0]` would panic); otherwise push the block,
append the SPAN row, and initialise the span context with the first group and
`num_op_groups - 1`. -/
def Decoder.start_span (d : Decoder) (block : Span) (addr : Nat) : Option Decoder :=
  match d.span_context with
  | some _ => none
  | none =>
    match block.op_batches with
    | [] => none
    | batch0 :: _ =>
      let p := BlockStack.push d.block_stack addr
      let num_op_groups := get_num_op_groups_in_span block
      some { block_stack := p.2
             span_context := some ⟨batch0.groups.headI, feltSub num_op_groups 1⟩
             trace := d.trace ++ [.spanStart p.1 batch0.groups num_op_groups] }

/-- `Decoder::respan`: append the RESPAN row, pop and re-push the top entry
with `addr + HASHER_CYCLE_LEN` (= 8), decrement `num_groups_left`, and load
the new batch's first group. -/
def Decoder.respan (d : Decoder) (op_batch : OpBatch) : Option Decoder :=
  let t := d.trace ++ [.respanRow op_batch.groups]
  match d.block_stack with
  | [] => none
  | block :: rest =>
    let p := BlockStack.push rest (feltAdd block.addr 8)
    match d.span_context with
    | none => none
    | some ctx =>
      some { block_stack := p.2
             span_context := some ⟨op_batch.groups.headI, feltSub ctx.num_groups_left 1⟩
             trace := t }

/-- `Decoder::consume_imm_value`: decrement `num_groups_left`; fatal outside a
span. -/
def Decoder.consume_imm_value (d : Decoder) : Option Decoder :=
  match d.span_context with
  | none => none
  | some ctx =>
    some { d with span_context := some ⟨ctx.group_ops_left, feltSub ctx.num_groups_left 1⟩ }

/-- `Decoder::start_op_group`: load the next group and decrement
`num_groups_left`; fatal outside a span. -/
def Decoder.start_op_group (d : Decoder) (op_group : Nat) : Option Decoder :=
  match d.span_context with
  | none => none
  | some ctx =>
    some { d with span_context := some ⟨op_group, feltSub ctx.num_groups_left 1⟩ }

/-- `Decoder::execute_user_op`: fatal for decorators, on an empty block stack,
outside a span, or for an operation with no opcode; otherwise update
`group_ops_left` by `remove_opcode_from_group` and append the user-op row. -/
def Decoder.execute_user_op (d : Decoder) (op : Operation) : Option Decoder :=
  if op.is_decorator then none
  else
    match d.block_stack with
    | [] => none
    | block :: _ =>
      match d.span_context with
      | none => none
      | some ctx =>
        match remove_opcode_from_group ctx.group_ops_left op with
        | none => none
        | some g =>
          some { d with
                 span_context := some ⟨g, ctx.num_groups_left⟩
                 trace := d.trace ++
                   [.userOp op block.addr block.parent_addr ctx.num_groups_left g] }

/-- `Decoder::end_span`: pop the block (fatal on an empty stack), append the
span END row, drop the span context. -/
def Decoder.end_span (d : Decoder) (block : Span) : Option Decoder :=
  match d.block_stack with
  | [] => none
  | _ :: rest =>
    some { block_stack := rest
           span_context := none
           trace := d.trace ++ [.spanEnd block.hash 0] }

/-- Run `execute_user_op` over a sequence of operations. -/
def execOps (d : Decoder) : List Operation → Option Decoder
  | [] => some d
  | op :: rest =>
    match d.execute_user_op op with
    | none => none
    | some d1 => execOps d1 rest

/-- Run `respan` over a sequence of op-batches. -/
def respanSeq (d : Decoder) : List OpBatch → Option Decoder
  | [] => some d
  | b :: rest =>
    match d.respan b with
    | none => none
    | some d1 => respanSeq d1 rest

-- ============================================================================
-- Process-level block-start handlers (the hasher is an oracle returning an
-- address and a digest; the decoder consumes only the address)
-- ============================================================================

/-- `Process::start_join_block`: builds the 12-element hasher input (all
zeros), hashes it, starts the join.  Returns the decoder together with the
state that was passed to `hasher.hash`. -/
def Process.start_join_block (d : Decoder) (block : Join)
    (hasher : List Nat → Nat × List Nat) : Decoder × List Nat :=
  let hasher_state := List.replicate 12 0
  let addr := (hasher hasher_state).1
  (d.start_join block addr, hasher_state)

/-- `Process::start_split_block`: peeks the condition from the user stack,
builds the 12-element hasher input (all zeros), hashes it, starts the split. -/
def Process.start_split_block (d : Decoder) (block : Split) (condition : Nat)
    (hasher : List Nat → Nat × List Nat) : Decoder × List Nat :=
  let hasher_state := List.replicate 12 0
  let addr := (hasher hasher_state).1
  (d.start_split block addr condition, hasher_state)

/-- `Process::start_span_block`: builds the 12-element hasher input from the
first op-batch (its 8 groups followed by four zeros), hashes it, starts the
span.  `none` when the span has no batches or `start_span` fails. -/
def Process.start_span_block (d : Decoder) (block : Span)
    (hasher : List Nat → Nat × List Nat) : Option (Decoder × List Nat) :=
  match block.op_batches with
  | [] => none
  | batch0 :: _ =>
    let fb := batch0.groups
    let hasher_state :=
      [fb.getD 0 0, fb.getD 1 0, fb.getD 2 0, fb.getD 3 0,
       fb.getD 4 0, fb.getD 5 0, fb.getD 6 0, fb.getD 7 0, 0, 0, 0, 0]
    let addr := (hasher hasher_state).1
    match d.start_span block addr with
    | none => none
    | some d1 => some (d1, hasher_state)

/-- The hasher state for a JOIN block as claim C2 words it: the children's
hashes (two 4-element words) padded to 12 elements with zeros. -/
def claimed_join_hasher_state (block : Join) : List Nat :=
  block.first_hash ++ block.second_hash ++ List.replicate 4 0

-- ============================================================================
-- Block-stack operation sequences (for the parent-chain invariant)
-- ============================================================================

/-- An abstract operation on the block stack. -/
inductive StackOp where
  | pushOp (addr : Nat)
  | popOp
deriving DecidableEq, Repr

/-- Run a sequence of stack operations; `none` on pop from an empty stack. -/
def runStackOps : List StackOp → List BlockInfo → Option (List BlockInfo)
  | [], s => some s
  | .pushOp a :: rest, s => runStackOps rest (BlockStack.push s a).2
  | .popOp :: rest, s =>
    match s with
    | [] => none
    | _ :: s1 => runStackOps rest s1

/-- Every entry's `parent_addr` is the `addr` of the entry below it, and the
bottom entry's `parent_addr` is zero (invariant I-A2). -/
def wellParented : List BlockInfo → Bool
  | [] => true
  | [b] => b.parent_addr == 0
  | b :: b1 :: rest => b.parent_addr == b1.addr && wellParented (b1 :: rest)

-- ============================================================================
-- TraceState row view (src/air/trace_state.rs)
-- ============================================================================

/-- Modelled from the spec: the row-layout constants live in the crate root,
which is not among the sources; §3 fixes the region order and the op-bit
widths (3/5/2), and scenario 1 of §8 together with the in-source tests fixes
the sponge width (4) and the minimum stack depths (1/1/8). -/
def SPONGE_WIDTH : Nat := 4

/-- Number of control-flow op bits. -/
def NUM_CF_OP_BITS : Nat := 3

/-- Number of low-degree op bits. -/
def NUM_LD_OP_BITS : Nat := 5

/-- Number of high-degree op bits. -/
def NUM_HD_OP_BITS : Nat := 2

/-- Minimum length of the context-stack region. -/
def MIN_CONTEXT_DEPTH : Nat := 1

/-- Minimum length of the loop-stack region. -/
def MIN_LOOP_DEPTH : Nat := 1

/-- Minimum length of the user-stack region. -/
def MIN_STACK_DEPTH : Nat := 8

/-- Index of the operation counter in a row. -/
def OP_COUNTER_IDX : Nat := 0

/-- Start of the sponge region (`OP_SPONGE_RANGE = 1..5`). -/
def OP_SPONGE_START : Nat := 1

/-- Start of the control-flow op-bit region (`CF_OP_BITS_RANGE = 5..8`). -/
def CF_OP_BITS_START : Nat := OP_SPONGE_START + SPONGE_WIDTH

/-- Start of the low-degree op-bit region (`LD_OP_BITS_RANGE = 8..13`). -/
def LD_OP_BITS_START : Nat := CF_OP_BITS_START + NUM_CF_OP_BITS

/-- Start of the high-degree op-bit region (`HD_OP_BITS_RANGE = 13..15`). -/
def HD_OP_BITS_START : Nat := LD_OP_BITS_START + NUM_LD_OP_BITS

/-- `HD_OP_BITS_RANGE.end = 15`: the number of static decoder registers
that precede the three stack regions. -/
def HD_OP_BITS_END : Nat := HD_OP_BITS_START + NUM_HD_OP_BITS

/-- `TraceState`: a trace row split into named regions.  Elements live in the
128-bit field; the stack regions are padded with zeros up to the enforced
minimum depths while the `*_depth` fields keep the configured depths. -/
structure TraceState where
  op_counter : Nat
  sponge : List Nat
  cf_op_bits : List Nat
  ld_op_bits : List Nat
  hd_op_bits : List Nat
  ctx_stack : List Nat
  loop_stack : List Nat
  user_stack : List Nat
  ctx_depth : Nat
  loop_depth : Nat
  stack_depth : Nat
deriving DecidableEq, Repr

/-- `TraceState::from_vec`: slice the row into the regions.  The Rust
`copy_from_slice` calls panic unless the row length is exactly
`15 + ctx_depth + loop_depth + stack_depth`; that failure is modelled as
`none`. -/
def TraceState.from_vec (ctx_depth loop_depth stack_depth : Nat) (state : List Nat) :
    Option TraceState :=
  if state.length = HD_OP_BITS_END + ctx_depth + loop_depth + stack_depth then
    some { op_counter := state.getD OP_COUNTER_IDX 0
           sponge := (state.drop OP_SPONGE_START).take SPONGE_WIDTH
           cf_op_bits := (state.drop CF_OP_BITS_START).take NUM_CF_OP_BITS
           ld_op_bits := (state.drop LD_OP_BITS_START).take NUM_LD_OP_BITS
           hd_op_bits := (state.drop HD_OP_BITS_START).take NUM_HD_OP_BITS
           ctx_stack := (state.drop HD_OP_BITS_END).take ctx_depth ++
             List.replicate (max ctx_depth MIN_CONTEXT_DEPTH - ctx_depth) 0
           loop_stack := (state.drop (HD_OP_BITS_END + ctx_depth)).take loop_depth ++
             List.replicate (max loop_depth MIN_LOOP_DEPTH - loop_depth) 0
           user_stack := (state.drop (HD_OP_BITS_END + ctx_depth + loop_depth)).take stack_depth ++
             List.replicate (max stack_depth MIN_STACK_DEPTH - stack_depth) 0
           ctx_depth := ctx_depth
           loop_depth := loop_depth
           stack_depth := stack_depth }
  else none

/-- `TraceState::to_vec`: concatenate the regions, truncating the stack
regions to the configured depths. -/
def TraceState.to_vec (t : TraceState) : List Nat :=
  t.op_counter ::
    (t.sponge ++ t.cf_op_bits ++ t.ld_op_bits ++ t.hd_op_bits ++
      t.ctx_stack.take t.ctx_depth ++ t.loop_stack.take t.loop_depth ++
      t.user_stack.take t.stack_depth)

/-- `TraceState::get_void_op_flag`: the field product of the three
control-flow op bits. -/
def TraceState.get_void_op_flag (t : TraceState) : Nat :=
  feltMul128 (feltMul128 (t.cf_op_bits.getD 0 0) (t.cf_op_bits.getD 1 0)) (t.cf_op_bits.getD 2 0)

-- ============================================================================
-- Specification-side functions and predicates used to state the claims
-- ============================================================================

/-- The opcode-removal arithmetic as the spec words it: subtract the opcode,
then integer-divide by 2^7, on canonical integer representations. -/
def specRemoveFold (g : Nat) (ocs : List Nat) : Nat :=
  ocs.foldl (fun acc oc => (acc - oc) / 2 ^ 7) g

/-- Stepwise well-formedness of an opcode sequence against a group value:
each opcode is bounded by the current group value (the low base-2^7 digit of
a well-formed group is the opcode to execute next). -/
def validSeq : Nat → List Nat → Bool
  | _, [] => true
  | g, oc :: rest => decide (oc ≤ g) && validSeq ((g - oc) / 2 ^ 7) rest

-- ============================================================================
-- Concrete inputs for witnesses and counterexamples
-- ============================================================================

/-- A join block whose children's hashes are not all zero. -/
def exJoin : Join := ⟨[1, 0, 0, 0], [0, 0, 0, 0], [5, 5, 5, 5]⟩

/-- A split block with distinct child hashes. -/
def exSplit : Split := ⟨[1, 2, 3, 4], [5, 6, 7, 8], [9, 9, 9, 9]⟩

/-- A trivial hasher oracle. -/
def exHasher : List Nat → Nat × List Nat := fun _ => (0, [0, 0, 0, 0])

/-- A one-batch span whose batch holds 3 op-groups (so the padded group count
is 4). -/
def exSpan3 : Span := ⟨[⟨[7, 0, 0, 0, 0, 0, 0, 0], 3⟩], [9, 9, 9, 9]⟩

/-- A two-batch span used by the witness of the span-start claim. -/
def exSpan2 : Span :=
  ⟨[⟨[7, 0, 0, 0, 0, 0, 0, 0], 3⟩, ⟨[11, 0, 0, 0, 0, 0, 0, 0], 2⟩], [9, 9, 9, 9]⟩

/-- An empty decoder. -/
def exEmptyDecoder : Decoder := ⟨[], none, []⟩

/-- A decoder inside a span: one open block, a live span context with
`group_ops_left = 5` and `num_groups_left = 10`. -/
def exSpanDecoder : Decoder := ⟨[⟨16, 0⟩], some ⟨5, 10⟩, []⟩

/-- An op-batch of 8 groups whose first group is 42. -/
def exBatch8 : OpBatch := ⟨[42, 0, 0, 0, 0, 0, 0, 0], 8⟩

/-- Two small op-batches for the respan-sequence witness. -/
def exBatchA : OpBatch := ⟨[1, 0, 0, 0, 0, 0, 0, 0], 1⟩

/-- Second op-batch for the respan-sequence witness. -/
def exBatchB : OpBatch := ⟨[2, 0, 0, 0, 0, 0, 0, 0], 1⟩

/-- A decoder inside a span used by the respan-sequence witness. -/
def exRespanDecoder : Decoder := ⟨[⟨2, 0⟩], some ⟨0, 9⟩, []⟩

/-- A decoder inside a span with the group of spec scenario 6
(`g = 1 + 2^7 * 2 + 2^14 * 3 = 49409`) in progress. -/
def exOpcodeDecoder : Decoder := ⟨[⟨8, 0⟩], some ⟨49409, 7⟩, []⟩

/-- The inverse of 2 in the 128-bit field. -/
def inv2_128 : Nat := (P128 + 1) / 2

/-- A trace state whose control-flow bits are 2, 2⁻¹ and 1: their field
product is 1 although the bits are not `[1,1,1]`. -/
def exVoidState : TraceState :=
  ⟨0, [0, 0, 0, 0], [2, inv2_128, 1], [0, 0, 0, 0, 0], [0, 0],
   [0], [0], [0, 0, 0, 0, 0, 0, 0, 0], 0, 0, 2⟩

/-- A trace state whose control-flow bits are all 1. -/
def exVoidState1 : TraceState :=
  ⟨0, [0, 0, 0, 0], [1, 1, 1], [0, 0, 0, 0, 0], [0, 0],
   [0], [0], [0, 0, 0, 0, 0, 0, 0, 0], 0, 0, 2⟩

/-- A decoder with one open block and no span context (control state). -/
def exC9d : Decoder := ⟨[⟨1, 0⟩], none, []⟩

/-- A decoder with one open block and a live span context. -/
def exC9dspan : Decoder := ⟨[⟨1, 0⟩], some ⟨49409, 7⟩, []⟩

-- ============================================================================
-- Helper lemmas
-- ============================================================================

/-- Pushing onto a well-parented stack keeps it well-parented. -/
theorem wellParented_push (s : List BlockInfo) (a : Nat) (h : wellParented s = true) :
    wellParented (BlockStack.push s a).2 = true := by
  cases s with
  | nil => rfl
  | cons b rest => simp [BlockStack.push, wellParented, h]

/-- The tail of a well-parented stack is well-parented. -/
theorem wellParented_tail (b : BlockInfo) (s : List BlockInfo)
    (h : wellParented (b :: s) = true) : wellParented s = true := by
  cases s with
  | nil => rfl
  | cons b1 rest =>
    simp only [wellParented, Bool.and_eq_true] at h
    exact h.2

/-- Running any sequence of stack operations preserves the parent-chain
invariant. -/
theorem runStackOps_wellParented (ops : List StackOp) :
    ∀ (s s' : List BlockInfo), wellParented s = true →
      runStackOps ops s = some s' → wellParented s' = true := by
  induction ops with
  | nil =>
    intro s s' h hr
    simp only [runStackOps, Option.some.injEq] at hr
    exact hr ▸ h
  | cons op rest ih =>
    intro s s' h hr
    cases op with
    | pushOp a => exact ih _ _ (wellParented_push s a h) hr
    | popOp =>
      cases s with
      | nil => simp [runStackOps] at hr
      | cons b s1 => exact ih _ _ (wellParented_tail b s1 h) hr

/-- A successful `respan` in full: the RESPAN row is appended, the top block
is re-pushed with its address advanced by 8, `num_groups_left` is decremented
and `group_ops_left` is reloaded from the new batch. -/
theorem respan_step (d : Decoder) (b : OpBatch) (blk : BlockInfo)
    (rest : List BlockInfo) (ctx : SpanContext)
    (hstk : d.block_stack = blk :: rest) (hctx : d.span_context = some ctx) :
    ∃ d1, d.respan b = some d1 ∧
      d1.block_stack = ⟨feltAdd blk.addr 8, headAddr rest⟩ :: rest ∧
      d1.span_context = some ⟨b.groups.headI, feltSub ctx.num_groups_left 1⟩ ∧
      d1.trace = d.trace ++ [.respanRow b.groups] := by
  cases d with
  | mk dbs dsc dtr =>
    simp only at hstk hctx
    subst hstk
    subst hctx
    cases rest with
    | nil => exact ⟨_, rfl, rfl, rfl, rfl⟩
    | cons top r1 => exact ⟨_, rfl, rfl, rfl, rfl⟩

-- ============================================================================
-- Claim theorems
-- ============================================================================

/-- Claim C8: `BlockStack::push` returns the `addr` of the entry that was on
top before the push (zero when the stack was empty) and appends
`(addr, parent_addr)`; consequently every stack reachable by pushes and pops
from the empty stack satisfies invariant I-A2: each entry's `parent_addr`
equals the `addr` of the entry immediately below it, and the bottom entry's
`parent_addr` is zero. -/
theorem push_returns_parent_and_chain_invariant :
    (∀ (s : List BlockInfo) (a : Nat),
        (BlockStack.push s a).1 = headAddr s ∧
        (BlockStack.push s a).2 = ⟨a, headAddr s⟩ :: s) ∧
    (∀ (ops : List StackOp) (s : List BlockInfo),
        runStackOps ops [] = some s → wellParented s = true) := by
  constructor
  · intro s a
    cases s with
    | nil => exact ⟨rfl, rfl⟩
    | cons b rest => exact ⟨rfl, rfl⟩
  · intro ops s hr
    exact runStackOps_wellParented ops [] s rfl hr

/-- Witness for the parent-chain theorem at a concrete push sequence. -/
theorem push_returns_parent_and_chain_invariant_witness :
    wellParented [⟨7, 5⟩, ⟨5, 0⟩] = true :=
  push_returns_parent_and_chain_invariant.2 [.pushOp 5, .pushOp 7] [⟨7, 5⟩, ⟨5, 0⟩] rfl

/-- Claim C10: `start_split` discards the popped condition: from the same
decoder state, two runs with different condition values produce identical
decoder states (hence identical appended trace rows), both at the `Decoder`
and at the `Process` level. -/
theorem start_split_ignores_condition (d : Decoder) (b : Split) (addr c1 c2 : Nat)
    (hasher : List Nat → Nat × List Nat) :
    Decoder.start_split d b addr c1 = Decoder.start_split d b addr c2 ∧
    Process.start_split_block d b c1 hasher = Process.start_split_block d b c2 hasher :=
  ⟨rfl, rfl⟩

/-- Counterexample to claim C4: `respan` decrements `num_groups_left` instead
of resetting it from the new batch.  From `num_groups_left = 10`, respanning
to a batch of 8 groups leaves 9 — not the batch's group count minus one. -/
theorem respan_count_counterexample :
    (Decoder.respan exSpanDecoder exBatch8).map (fun d => d.span_context) =
      some (some ⟨42, 9⟩) ∧
    (9 : Nat) ≠ feltSub exBatch8.num_groups 1 ∧
    (9 : Nat) ≠ feltSub (nextPow2 exBatch8.num_groups) 1 := by
  decide

/-- Claim C4 (amended): after a successful `respan`, `group_ops_left` is the
new batch's first group, while `num_groups_left` is the previous value
decremented by one (it is not reset from the new batch); the RESPAN row is
appended and the top block is re-pushed with its address advanced by 8. -/
theorem respan_effect (d d' : Decoder) (batch : OpBatch) (blk : BlockInfo)
    (rest : List BlockInfo) (ctx : SpanContext)
    (hstk : d.block_stack = blk :: rest)
    (hctx : d.span_context = some ctx)
    (hr : d.respan batch = some d') :
    d'.span_context = some ⟨batch.groups.headI, feltSub ctx.num_groups_left 1⟩ ∧
    d'.trace = d.trace ++ [.respanRow batch.groups] ∧
    d'.block_stack = ⟨feltAdd blk.addr 8, headAddr rest⟩ :: rest := by
  obtain ⟨d1, hd1, hbs, hsc, htr⟩ := respan_step d batch blk rest ctx hstk hctx
  rw [hd1, Option.some.injEq] at hr
  subst hr
  exact ⟨hsc, htr, hbs⟩

/-- Witness for the amended respan claim at a concrete state. -/
theorem respan_effect_witness :
    (Decoder.mk [⟨24, 0⟩] (some ⟨42, 9⟩)
        [.respanRow [42, 0, 0, 0, 0, 0, 0, 0]]).span_context =
      some ⟨exBatch8.groups.headI, feltSub (⟨5, 10⟩ : SpanContext).num_groups_left 1⟩ :=
  (respan_effect exSpanDecoder _ exBatch8 ⟨16, 0⟩ [] ⟨5, 10⟩ rfl rfl (by decide)).1

/-- Counterexample to claim C3: a one-batch span whose batch holds 3 op-groups
starts with `num_groups_left = 3` (the padded group count 4, minus one), not
the batch's group count minus one (2). -/
theorem start_span_count_counterexample :
    (Decoder.start_span exEmptyDecoder exSpan3 16).map (fun d => d.span_context) =
      some (some ⟨7, 3⟩) ∧
    (3 : Nat) ≠ exSpan3.op_batches.headI.num_groups - 1 := by
  decide

/-- Claim C3 (amended): `start_span` initialises `group_ops_left` to the first
group of the first batch and `num_groups_left` to the span's total op-group
count — the sum over all batches of `num_groups` rounded up to the next power
of two — minus one; the SPAN row is appended. -/
theorem start_span_initial_context (d d' : Decoder) (block : Span) (addr : Nat)
    (batch0 : OpBatch) (rest : List OpBatch)
    (hb : block.op_batches = batch0 :: rest)
    (hs : d.start_span block addr = some d') :
    d'.span_context =
      some ⟨batch0.groups.headI, feltSub (get_num_op_groups_in_span block) 1⟩ ∧
    d'.trace = d.trace ++
      [.spanStart (headAddr d.block_stack) batch0.groups (get_num_op_groups_in_span block)] := by
  cases d with
  | mk dbs dsc dtr =>
    cases dsc with
    | some ctx => exact absurd hs (by simp [Decoder.start_span])
    | none =>
      unfold Decoder.start_span at hs
      rw [hb] at hs
      simp only [Option.some.injEq] at hs
      subst hs
      cases dbs with
      | nil => exact ⟨rfl, rfl⟩
      | cons top r1 => exact ⟨rfl, rfl⟩

/-- Witness for the amended span-start claim on a two-batch span
(padded group counts 4 and 2, so `num_groups_left` starts at 5). -/
theorem start_span_initial_context_witness :
    (Decoder.mk [⟨16, 0⟩] (some ⟨7, 5⟩)
        [.spanStart 0 [7, 0, 0, 0, 0, 0, 0, 0] 6]).span_context =
      some ⟨(⟨[7, 0, 0, 0, 0, 0, 0, 0], 3⟩ : OpBatch).groups.headI,
        feltSub (get_num_op_groups_in_span exSpan2) 1⟩ :=
  (start_span_initial_context exEmptyDecoder _ exSpan2 16 ⟨[7, 0, 0, 0, 0, 0, 0, 0], 3⟩
    [⟨[11, 0, 0, 0, 0, 0, 0, 0], 2⟩] rfl (by decide)).1

/-- Claim C5: each `respan` pops the top block-stack entry and re-pushes it
with its address advanced by `HASHER_CYCLE_LEN = 8`, leaving the rest of the
stack untouched; after `k` respans the top entry's address equals the span's
starting address plus `8·k` (in particular `start_addr + 8` after one). -/
theorem respan_advances_block_addr (bs : List OpBatch) :
    ∀ (d d' : Decoder) (blk : BlockInfo) (rest : List BlockInfo),
      d.block_stack = blk :: rest →
      d.span_context.isSome = true →
      respanSeq d bs = some d' →
      blk.addr + 8 * bs.length < PFelt →
      ∃ blk', d'.block_stack = blk' :: rest ∧ blk'.addr = blk.addr + 8 * bs.length := by
  induction bs with
  | nil =>
    intro d d' blk rest hstk _ hrun _
    simp only [respanSeq, Option.some.injEq] at hrun
    subst hrun
    exact ⟨blk, hstk, by simp⟩
  | cons b rest_bs ih =>
    intro d d' blk rest hstk hctx hrun hlt
    obtain ⟨ctx, hctx'⟩ := Option.isSome_iff_exists.mp hctx
    simp only [List.length_cons] at hlt
    have h8 : blk.addr + 8 < PFelt := by omega
    have haddr : feltAdd blk.addr 8 = blk.addr + 8 := by
      unfold feltAdd
      exact Nat.mod_eq_of_lt h8
    obtain ⟨d1, hd1, hbs, hsc, _⟩ := respan_step d b blk rest ctx hstk hctx'
    have hrun1 : respanSeq d1 rest_bs = some d' := by
      simp only [respanSeq, hd1] at hrun
      exact hrun
    obtain ⟨blk', hstk', haddr'⟩ :=
      ih d1 d' ⟨feltAdd blk.addr 8, headAddr rest⟩ rest hbs (by rw [hsc]; rfl) hrun1
        (by simp only [haddr]; omega)
    refine ⟨blk', hstk', ?_⟩
    simp only [haddr] at haddr'
    simp only [List.length_cons]
    omega

/-- Witness for the respan-address claim: two respans advance the top address
from 2 to 18 = 2 + 8·2. -/
theorem respan_advances_block_addr_witness :
    ∃ blk', (Decoder.mk [⟨18, 0⟩] (some ⟨2, 7⟩)
        [.respanRow [1, 0, 0, 0, 0, 0, 0, 0], .respanRow [2, 0, 0, 0, 0, 0, 0, 0]]).block_stack =
      blk' :: [] ∧
      blk'.addr = (⟨2, 0⟩ : BlockInfo).addr + 8 * [exBatchA, exBatchB].length :=
  respan_advances_block_addr [exBatchA, exBatchB] exRespanDecoder _ ⟨2, 0⟩ []
    rfl rfl (by decide) (by decide)

/-- A list of length 8 followed by four zeros is recovered from its first
eight `getD` reads. -/
theorem list_getD_eight (l : List Nat) (h : l.length = 8) :
    [l.getD 0 0, l.getD 1 0, l.getD 2 0, l.getD 3 0,
     l.getD 4 0, l.getD 5 0, l.getD 6 0, l.getD 7 0, 0, 0, 0, 0] =
      l ++ List.replicate 4 0 := by
  rcases l with _ | ⟨a0, _ | ⟨a1, _ | ⟨a2, _ | ⟨a3, _ | ⟨a4, _ | ⟨a5, _ | ⟨a6, _ |
    ⟨a7, _ | ⟨a8, t⟩⟩⟩⟩⟩⟩⟩⟩⟩ <;>
    simp only [List.length_cons, List.length_nil] at h <;>
    first
      | omega
      | rfl

/-- Counterexample to claim C2: for a JOIN block with a nonzero first-child
hash, the state passed to `hasher.hash` is twelve zeros, not the children's
hashes. -/
theorem join_hasher_state_counterexample :
    (Process.start_join_block exEmptyDecoder exJoin exHasher).2 ≠
      claimed_join_hasher_state exJoin := by
  decide

/-- Claim C2 (amended): the 12-element state passed to `hasher.hash` is all
zeros for JOIN and SPLIT control blocks (their children's hashes go into the
trace row, not into the hasher input), and for SPAN it is the 8 groups of the
first op-batch padded with four zeros. -/
theorem hasher_state_per_block_kind (d1 d2 d3 d4 : Decoder) (jb : Join) (sb : Split)
    (sp : Span) (c : Nat) (hasher : List Nat → Nat × List Nat)
    (batch0 : OpBatch) (rest : List OpBatch) (st : List Nat) :
    (Process.start_join_block d1 jb hasher).2 = List.replicate 12 0 ∧
    (Process.start_split_block d2 sb c hasher).2 = List.replicate 12 0 ∧
    (sp.op_batches = batch0 :: rest → batch0.groups.length = 8 →
      Process.start_span_block d3 sp hasher = some (d4, st) →
      st = batch0.groups ++ List.replicate 4 0) := by
  refine ⟨rfl, rfl, fun hb h8 hs => ?_⟩
  unfold Process.start_span_block at hs
  simp only [hb] at hs
  rcases hss : Decoder.start_span d3 sp
      ((hasher [batch0.groups.getD 0 0, batch0.groups.getD 1 0, batch0.groups.getD 2 0,
        batch0.groups.getD 3 0, batch0.groups.getD 4 0, batch0.groups.getD 5 0,
        batch0.groups.getD 6 0, batch0.groups.getD 7 0, 0, 0, 0, 0]).1) with _ | dd
  · rw [hss] at hs
    simp at hs
  · rw [hss] at hs
    simp only [Option.some.injEq, Prod.mk.injEq] at hs
    obtain ⟨-, hst⟩ := hs
    rw [← hst]
    exact list_getD_eight batch0.groups h8

/-- Witness for the amended hasher-state claim on a concrete span. -/
theorem hasher_state_per_block_kind_witness :
    ([7, 0, 0, 0, 0, 0, 0, 0, 0, 0, 0, 0] : List Nat) =
      (⟨[7, 0, 0, 0, 0, 0, 0, 0], 3⟩ : OpBatch).groups ++ List.replicate 4 0 :=
  (hasher_state_per_block_kind exEmptyDecoder exEmptyDecoder exEmptyDecoder
    (Decoder.mk [⟨0, 0⟩] (some ⟨7, 3⟩) [.spanStart 0 [7, 0, 0, 0, 0, 0, 0, 0] 4])
    exJoin exSplit exSpan3 0 exHasher ⟨[7, 0, 0, 0, 0, 0, 0, 0], 3⟩ []
    [7, 0, 0, 0, 0, 0, 0, 0, 0, 0, 0, 0]).2.2 rfl rfl (by decide)

/-- `remove_opcode_from_group` computes the spec's subtract-then-shift value
whenever the opcode is bounded by the group value. -/
theorem remove_opcode_eq_div (g oc : Nat) (hle : oc ≤ g) (hlt : g < 2 ^ 64) :
    remove_opcode_from_group g (mkUserOp oc) = some ((g - oc) / 2 ^ 7) := by
  have e64 : (2 : Nat) ^ 64 = 18446744073709551616 := by norm_num
  have hoc : oc < 2 ^ 64 := lt_of_le_of_lt hle hlt
  have h1 : u64Sub g oc = g - oc := by
    unfold u64Sub
    rw [Nat.mod_eq_of_lt hoc]
    rw [e64] at hlt hoc ⊢
    omega
  have h2 : feltNew ((g - oc) >>> 7) = (g - oc) / 2 ^ 7 := by
    rw [Nat.shiftRight_eq_div_pow]
    unfold feltNew PFelt
    have e32 : (2 : Nat) ^ 32 = 4294967296 := by norm_num
    have e7 : (2 : Nat) ^ 7 = 128 := by norm_num
    rw [e32, e7, e64]
    rw [e64] at hlt
    omega
  unfold remove_opcode_from_group mkUserOp
  simp only
  rw [h1, h2]

/-- Claim C1: executing a user op replaces `group_ops_left` by
`(group_ops_left − opcode) / 2⁷` on canonical integer representations, so
executing opcodes `o₁ … o_k` from a group value `g` leaves
`group_ops_left = (((g − o₁)/2⁷ − o₂)/2⁷ ⋯ − o_k)/2⁷`; `num_groups_left` is
untouched. -/
theorem execute_user_ops_fold (ocs : List Nat) :
    ∀ (d d' : Decoder) (blk : BlockInfo) (rest : List BlockInfo) (ctx : SpanContext),
      d.block_stack = blk :: rest →
      d.span_context = some ctx →
      ctx.group_ops_left < 2 ^ 64 →
      validSeq ctx.group_ops_left ocs = true →
      execOps d (ocs.map mkUserOp) = some d' →
      ∃ ctx', d'.span_context = some ctx' ∧
        ctx'.group_ops_left = specRemoveFold ctx.group_ops_left ocs ∧
        ctx'.num_groups_left = ctx.num_groups_left := by
  induction ocs with
  | nil =>
    intro d d' blk rest ctx hstk hctx hlt hv hrun
    simp only [List.map_nil, execOps, Option.some.injEq] at hrun
    subst hrun
    exact ⟨ctx, hctx, rfl, rfl⟩
  | cons oc rest_ocs ih =>
    intro d d' blk rest ctx hstk hctx hlt hv hrun
    simp only [validSeq, Bool.and_eq_true, decide_eq_true_eq] at hv
    obtain ⟨hle, hv'⟩ := hv
    cases d with
    | mk dbs dsc dtr =>
      simp only at hstk hctx
      subst hstk
      subst hctx
      have hrm : remove_opcode_from_group ctx.group_ops_left ⟨some oc, false⟩ =
          some ((ctx.group_ops_left - oc) / 2 ^ 7) :=
        remove_opcode_eq_div ctx.group_ops_left oc hle hlt
      have hstep : Decoder.execute_user_op ⟨blk :: rest, some ctx, dtr⟩ (mkUserOp oc) =
          some ⟨blk :: rest,
            some ⟨(ctx.group_ops_left - oc) / 2 ^ 7, ctx.num_groups_left⟩,
            dtr ++ [.userOp (mkUserOp oc) blk.addr blk.parent_addr ctx.num_groups_left
              ((ctx.group_ops_left - oc) / 2 ^ 7)]⟩ := by
        simp only [Decoder.execute_user_op, mkUserOp]
        rw [if_neg (by simp), hrm]
      have hrun1 : execOps ⟨blk :: rest,
          some ⟨(ctx.group_ops_left - oc) / 2 ^ 7, ctx.num_groups_left⟩,
          dtr ++ [.userOp (mkUserOp oc) blk.addr blk.parent_addr ctx.num_groups_left
            ((ctx.group_ops_left - oc) / 2 ^ 7)]⟩ (rest_ocs.map mkUserOp) = some d' := by
        simp only [List.map_cons, execOps, hstep] at hrun
        exact hrun
      have hlt1 : (ctx.group_ops_left - oc) / 2 ^ 7 < 2 ^ 64 := by
        have e7 : (2 : Nat) ^ 7 = 128 := by norm_num
        have e64 : (2 : Nat) ^ 64 = 18446744073709551616 := by norm_num
        rw [e7, e64]
        rw [e64] at hlt
        omega
      obtain ⟨ctx', h1, h2, h3⟩ := ih _ d' blk rest
        ⟨(ctx.group_ops_left - oc) / 2 ^ 7, ctx.num_groups_left⟩ rfl rfl hlt1 hv' hrun1
      exact ⟨ctx', h1, h2, h3⟩

/-- Witness for the opcode-fold claim at the group of spec scenario 6
(`g = 1 + 2·2⁷ + 3·2¹⁴`, opcodes 1, 2, 3, final value 0). -/
theorem execute_user_ops_fold_witness :
    ∃ ctx', (Decoder.mk [⟨8, 0⟩] (some ⟨0, 7⟩)
        [.userOp (mkUserOp 1) 8 0 7 386, .userOp (mkUserOp 2) 8 0 7 3,
         .userOp (mkUserOp 3) 8 0 7 0]).span_context = some ctx' ∧
      ctx'.group_ops_left = specRemoveFold (⟨49409, 7⟩ : SpanContext).group_ops_left [1, 2, 3] ∧
      ctx'.num_groups_left = (⟨49409, 7⟩ : SpanContext).num_groups_left :=
  execute_user_ops_fold [1, 2, 3] exOpcodeDecoder _ ⟨8, 0⟩ [] ⟨49409, 7⟩ rfl rfl
    (by decide) (by decide) (by decide)

/-- Claim C9: every row-emitting decoder event (`start_join`, `end_join`,
`start_split`, `end_split`, `start_span`, `respan`, `execute_user_op`,
`end_span`) appends exactly one row to the trace buffer, while
`start_op_group` and `consume_imm_value` append no row and leave the block
stack unchanged. -/
theorem one_row_per_event (d dspan : Decoder) (jb : Join) (sb : Split) (sp sp2 : Span)
    (batch : OpBatch) (op : Operation) (g addr addr2 c : Nat)
    (d2 d4 d5 d6 d7 d8 d9 d10 : Decoder)
    (h2 : d.end_join jb = some d2)
    (h4 : d.end_split sb = some d4)
    (h5 : d.start_span sp addr2 = some d5)
    (h6 : dspan.respan batch = some d6)
    (h7 : dspan.execute_user_op op = some d7)
    (h8 : dspan.end_span sp2 = some d8)
    (h9 : dspan.start_op_group g = some d9)
    (h10 : dspan.consume_imm_value = some d10) :
    (∃ r, (d.start_join jb addr).trace = d.trace ++ [r]) ∧
    (∃ r, d2.trace = d.trace ++ [r]) ∧
    (∃ r, (d.start_split sb addr c).trace = d.trace ++ [r]) ∧
    (∃ r, d4.trace = d.trace ++ [r]) ∧
    (∃ r, d5.trace = d.trace ++ [r]) ∧
    (∃ r, d6.trace = dspan.trace ++ [r]) ∧
    (∃ r, d7.trace = dspan.trace ++ [r]) ∧
    (∃ r, d8.trace = dspan.trace ++ [r]) ∧
    (d9.trace = dspan.trace ∧ d9.block_stack = dspan.block_stack) ∧
    (d10.trace = dspan.trace ∧ d10.block_stack = dspan.block_stack) := by
  refine ⟨⟨_, rfl⟩, ?_, ⟨_, rfl⟩, ?_, ?_, ?_, ?_, ?_, ?_, ?_⟩
  · -- end_join
    cases hbs : d.block_stack with
    | nil => unfold Decoder.end_join at h2; rw [hbs] at h2; simp at h2
    | cons bi rest =>
      unfold Decoder.end_join at h2
      rw [hbs] at h2
      simp only [Option.some.injEq] at h2
      subst h2
      exact ⟨_, rfl⟩
  · -- end_split
    cases hbs : d.block_stack with
    | nil => unfold Decoder.end_split at h4; rw [hbs] at h4; simp at h4
    | cons bi rest =>
      unfold Decoder.end_split at h4
      rw [hbs] at h4
      simp only [Option.some.injEq] at h4
      subst h4
      exact ⟨_, rfl⟩
  · -- start_span
    cases hsc : d.span_context with
    | some ctx => unfold Decoder.start_span at h5; rw [hsc] at h5; simp at h5
    | none =>
      cases hob : sp.op_batches with
      | nil => unfold Decoder.start_span at h5; rw [hsc, hob] at h5; simp at h5
      | cons b0 rb =>
        unfold Decoder.start_span at h5
        rw [hsc, hob] at h5
        simp only [Option.some.injEq] at h5
        subst h5
        exact ⟨_, rfl⟩
  · -- respan
    cases hbs : dspan.block_stack with
    | nil => unfold Decoder.respan at h6; rw [hbs] at h6; simp at h6
    | cons bi rest =>
      cases hsc : dspan.span_context with
      | none => unfold Decoder.respan at h6; rw [hbs, hsc] at h6; simp at h6
      | some ctx =>
        unfold Decoder.respan at h6
        rw [hbs, hsc] at h6
        simp only [Option.some.injEq] at h6
        subst h6
        exact ⟨_, rfl⟩
  · -- execute_user_op
    cases hdec : op.is_decorator with
    | true => unfold Decoder.execute_user_op at h7; rw [hdec] at h7; simp at h7
    | false =>
      unfold Decoder.execute_user_op at h7
      rw [if_neg (by simp [hdec])] at h7
      cases hbs : dspan.block_stack with
      | nil => rw [hbs] at h7; simp at h7
      | cons bi rest =>
        rw [hbs] at h7
        cases hsc : dspan.span_context with
        | none => rw [hsc] at h7; simp at h7
        | some ctx =>
          rw [hsc] at h7
          simp only [Option.some.injEq] at h7
          cases hrm : remove_opcode_from_group ctx.group_ops_left op with
          | none => rw [hrm] at h7; simp at h7
          | some gnew =>
            rw [hrm] at h7
            simp only [Option.some.injEq] at h7
            subst h7
            exact ⟨_, rfl⟩
  · -- end_span
    cases hbs : dspan.block_stack with
    | nil => unfold Decoder.end_span at h8; rw [hbs] at h8; simp at h8
    | cons bi rest =>
      unfold Decoder.end_span at h8
      rw [hbs] at h8
      simp only [Option.some.injEq] at h8
      subst h8
      exact ⟨_, rfl⟩
  · -- start_op_group
    cases hsc : dspan.span_context with
    | none => unfold Decoder.start_op_group at h9; rw [hsc] at h9; simp at h9
    | some ctx =>
      unfold Decoder.start_op_group at h9
      rw [hsc] at h9
      simp only [Option.some.injEq] at h9
      subst h9
      exact ⟨rfl, rfl⟩
  · -- consume_imm_value
    cases hsc : dspan.span_context with
    | none => unfold Decoder.consume_imm_value at h10; rw [hsc] at h10; simp at h10
    | some ctx =>
      unfold Decoder.consume_imm_value at h10
      rw [hsc] at h10
      simp only [Option.some.injEq] at h10
      subst h10
      exact ⟨rfl, rfl⟩

/-- Witness for the row-per-event claim: the two context-only events leave
trace and block stack of a concrete in-span decoder unchanged. -/
theorem one_row_per_event_witness :
    (((Decoder.mk [⟨1, 0⟩] (some ⟨3, 6⟩) []).trace = exC9dspan.trace ∧
        (Decoder.mk [⟨1, 0⟩] (some ⟨3, 6⟩) []).block_stack = exC9dspan.block_stack) ∧
      ((Decoder.mk [⟨1, 0⟩] (some ⟨49409, 6⟩) []).trace = exC9dspan.trace ∧
        (Decoder.mk [⟨1, 0⟩] (some ⟨49409, 6⟩) []).block_stack = exC9dspan.block_stack)) :=
  (one_row_per_event exC9d exC9dspan exJoin exSplit exSpan3 exSpan3 exBatch8 (mkUserOp 1)
    3 5 6 0
    ⟨[], none, [.row 1 Operation.End [5, 5, 5, 5] [0, 0, 0, 0]]⟩
    ⟨[], none, [.row 1 Operation.End [9, 9, 9, 9] [0, 0, 0, 0]]⟩
    ⟨[⟨6, 1⟩, ⟨1, 0⟩], some ⟨7, 3⟩, [.spanStart 1 [7, 0, 0, 0, 0, 0, 0, 0] 4]⟩
    ⟨[⟨9, 0⟩], some ⟨42, 6⟩, [.respanRow [42, 0, 0, 0, 0, 0, 0, 0]]⟩
    ⟨[⟨1, 0⟩], some ⟨386, 7⟩, [.userOp (mkUserOp 1) 1 0 7 386]⟩
    ⟨[], none, [.spanEnd [9, 9, 9, 9] 0]⟩
    ⟨[⟨1, 0⟩], some ⟨3, 6⟩, []⟩
    ⟨[⟨1, 0⟩], some ⟨49409, 6⟩, []⟩
    (by decide) (by decide) (by decide) (by decide)
    (by decide) (by decide) (by decide) (by decide)).2.2.2.2.2.2.2.2

/-- Counterexample to claim C7: over the 128-bit field the product of the
control-flow bits `[2, 2⁻¹, 1]` equals 1 although the bits are not
`[1, 1, 1]`. -/
theorem void_flag_counterexample :
    TraceState.get_void_op_flag exVoidState = 1 ∧ exVoidState.cf_op_bits ≠ [1, 1, 1] := by
  decide

/-- Claim C7 (amended): `get_void_op_flag` returns the field product of the
three control-flow op bits, and when each bit is 0 or 1 the product equals 1
exactly when `cf_op_bits = [1, 1, 1]`. -/
theorem void_flag_product_iff (t : TraceState) (a b c : Nat)
    (hcf : t.cf_op_bits = [a, b, c]) (ha : a ≤ 1) (hb : b ≤ 1) (hc : c ≤ 1) :
    t.get_void_op_flag = feltMul128 (feltMul128 a b) c ∧
    (t.get_void_op_flag = 1 ↔ t.cf_op_bits = [1, 1, 1]) := by
  have hflag : t.get_void_op_flag = feltMul128 (feltMul128 a b) c := by
    unfold TraceState.get_void_op_flag
    rw [hcf]
    rfl
  refine ⟨hflag, ?_⟩
  rw [hflag, hcf]
  interval_cases a <;> interval_cases b <;> interval_cases c <;> decide

/-- Witness for the amended void-flag claim with all bits 1. -/
theorem void_flag_product_iff_witness :
    TraceState.get_void_op_flag exVoidState1 = feltMul128 (feltMul128 1 1) 1 ∧
    (TraceState.get_void_op_flag exVoidState1 = 1 ↔ exVoidState1.cf_op_bits = [1, 1, 1]) :=
  void_flag_product_iff exVoidState1 1 1 1 rfl (by decide) (by decide) (by decide)

/-- A taken slice of a dropped list re-glued to the rest of the drop. -/
theorem drop_take_append (x : List Nat) (a b : Nat) :
    (x.drop a).take b ++ x.drop (a + b) = x.drop a := by
  have h1 := List.take_append_drop b (x.drop a)
  rwa [List.drop_drop] at h1

/-- Taking `n` of an exact slice of length `n` followed by any padding returns
the slice. -/
theorem take_slice_pad (x : List Nat) (i n : Nat) (pad : List Nat) (h : i + n ≤ x.length) :
    ((x.drop i).take n ++ pad).take n = (x.drop i).take n :=
  List.take_left' (by rw [List.length_take, List.length_drop]; omega)

/-- Claim C6: for every row whose length is the width determined by the
configured depths (15 static cells plus `ctx_depth + loop_depth +
stack_depth`), building a `TraceState` with `from_vec` and serialising it with
`to_vec` returns exactly the row. -/
theorem from_vec_to_vec_roundtrip (cd ld sd : Nat) (x : List Nat) (t : TraceState)
    (h : TraceState.from_vec cd ld sd x = some t) : t.to_vec = x := by
  unfold TraceState.from_vec at h
  by_cases hlen : x.length = HD_OP_BITS_END + cd + ld + sd
  · rw [if_pos hlen] at h
    simp only [Option.some.injEq] at h
    subst h
    have hlen' : x.length = 15 + cd + ld + sd := by
      simpa [HD_OP_BITS_END, HD_OP_BITS_START, LD_OP_BITS_START, CF_OP_BITS_START,
        OP_SPONGE_START, SPONGE_WIDTH, NUM_CF_OP_BITS, NUM_LD_OP_BITS,
        NUM_HD_OP_BITS] using hlen
    simp only [TraceState.to_vec, OP_COUNTER_IDX, OP_SPONGE_START, SPONGE_WIDTH,
      CF_OP_BITS_START, NUM_CF_OP_BITS, LD_OP_BITS_START, NUM_LD_OP_BITS,
      HD_OP_BITS_START, NUM_HD_OP_BITS, HD_OP_BITS_END, Nat.reduceAdd]
    rw [take_slice_pad x 15 cd _ (by omega), take_slice_pad x (15 + cd) ld _ (by omega),
      take_slice_pad x (15 + cd + ld) sd _ (by omega)]
    have husr2 : (x.drop (15 + cd + ld)).take sd = x.drop (15 + cd + ld) :=
      List.take_of_length_le (by rw [List.length_drop, hlen']; omega)
    have hloop2 : (x.drop (15 + cd)).take ld ++ x.drop (15 + cd + ld) = x.drop (15 + cd) :=
      drop_take_append x (15 + cd) ld
    have hctx2 : (x.drop 15).take cd ++ x.drop (15 + cd) = x.drop 15 :=
      drop_take_append x 15 cd
    have h13 : (x.drop 13).take 2 ++ x.drop 15 = x.drop 13 := drop_take_append x 13 2
    have h8' : (x.drop 8).take 5 ++ x.drop 13 = x.drop 8 := drop_take_append x 8 5
    have h5' : (x.drop 5).take 3 ++ x.drop 8 = x.drop 5 := drop_take_append x 5 3
    have h1' : (x.drop 1).take 4 ++ x.drop 5 = x.drop 1 := drop_take_append x 1 4
    simp only [List.append_assoc]
    rw [husr2, hloop2, hctx2, h13, h8', h5', h1']
    cases x with
    | nil => exact absurd hlen' (by simp only [List.length_nil]; omega)
    | cons x0 xs => rfl
  · rw [if_neg hlen] at h
    simp at h

/-- Witness for the round-trip claim at the first scenario of spec §8. -/
theorem from_vec_to_vec_roundtrip_witness :
    TraceState.to_vec ⟨101, [1, 2, 3, 4], [5, 6, 7], [8, 9, 10, 11, 12], [13, 14],
        [0], [0], [15, 16, 0, 0, 0, 0, 0, 0], 0, 0, 2⟩ =
      [101, 1, 2, 3, 4, 5, 6, 7, 8, 9, 10, 11, 12, 13, 14, 15, 16] :=
  from_vec_to_vec_roundtrip 0 0 2 [101, 1, 2, 3, 4, 5, 6, 7, 8, 9, 10, 11, 12, 13, 14, 15, 16]
    ⟨101, [1, 2, 3, 4], [5, 6, 7], [8, 9, 10, 11, 12], [13, 14], [0], [0],
      [15, 16, 0, 0, 0, 0, 0, 0], 0, 0, 2⟩ (by decide)
